import Mathlib

/-!
Verification of the trust core of the python-openid repository.

The nonce codec (`openid/store/nonce.py`) is embedded directly from the
source.  The Python standard-library calendar primitives it calls
(`time.gmtime`, `calendar.timegm`, `time.strftime`, `time.strptime`) are
embedded as the mathematical functions they compute on the proleptic
Gregorian calendar.
-/

namespace Nonce

/-- Allowed clock skew in seconds: `SKEW = 60 * 60 * 5` in the source. -/
def SKEW : Int := 60 * 60 * 5

/-- `time_str_len = len('0000-00-00T00:00:00Z')` in the source. -/
def time_str_len : Nat := 20

/-- Gregorian leap-year rule, as used by `time.gmtime`/`calendar.timegm`. -/
def isLeap (y : Nat) : Bool :=
  (y % 4 == 0 && y % 100 != 0) || y % 400 == 0

/-- Number of days in year `y`. -/
def daysInYear (y : Nat) : Nat :=
  if isLeap y then 366 else 365

/-- Number of days in month `m` (1-based) of year `y`. -/
def monthLength (y m : Nat) : Nat :=
  if m = 2 then (if isLeap y then 29 else 28)
  else if m = 4 ∨ m = 6 ∨ m = 9 ∨ m = 11 then 30
  else 31

/-- Total days in years `[s, s+n)`. -/
def sumDays (s : Nat) : Nat → Nat
  | 0 => 0
  | n + 1 => daysInYear s + sumDays (s + 1) n

/-- Total days in months `1..n` of year `y`. -/
def sumMonths (y : Nat) : Nat → Nat
  | 0 => 0
  | n + 1 => sumMonths y n + monthLength y (n + 1)

/-- Convert a day count (days since Jan 1 of year `y`) into a
(year, day-of-year) pair by walking years forward, as `gmtime` does.
`fuel` bounds the recursion; any `fuel ≥ d` gives the exact answer. -/
def yearAux : Nat → Nat → Nat → Nat × Nat
  | 0, y, d => (y, d)
  | fuel + 1, y, d =>
    if d < daysInYear y then (y, d)
    else yearAux fuel (y + 1) (d - daysInYear y)

/-- Convert a day-of-year into a (month, day-of-month) pair by walking
months forward from month `m`.  Called with `fuel = 11`, `m = 1`. -/
def monthAux (y : Nat) : Nat → Nat → Nat → Nat × Nat
  | 0, m, d => (m, d)
  | fuel + 1, m, d =>
    if d < monthLength y m then (m, d)
    else monthAux y fuel (m + 1) (d - monthLength y m)

/-- Broken-down UTC time, the fields of Python's `time.struct_time`
used by the nonce format. -/
structure Tm where
  year : Nat
  month : Nat
  mday : Nat
  hour : Nat
  minute : Nat
  sec : Nat
  deriving DecidableEq, Repr

/-- `time.gmtime` restricted to non-negative Unix timestamps: break a
Unix timestamp into UTC calendar fields. -/
def gmtime (t : Nat) : Tm :=
  let days := t / 86400
  let rem := t % 86400
  let yd := yearAux days 1970 days
  let md := monthAux yd.1 11 1 yd.2
  { year := yd.1, month := md.1, mday := md.2 + 1,
    hour := rem / 3600, minute := rem % 3600 / 60, sec := rem % 60 }

/-- Days from the Unix epoch to Jan 1 of year `y` (negative before 1970). -/
def yearsOffset (y : Nat) : Int :=
  if 1970 ≤ y then (sumDays 1970 (y - 1970) : Int)
  else -(sumDays y (1970 - y) : Int)

/-- `calendar.timegm`: the inverse conversion, implemented as in CPython by
an epoch-relative ordinal-day computation plus the seconds of the day.
A day count past the end of the month simply overflows into later days,
exactly as `date(year, month, 1).toordinal() + day - 1` does. -/
def timegm (tm : Tm) : Int :=
  86400 * (yearsOffset tm.year + (sumMonths tm.year (tm.month - 1) : Int)
             + ((tm.mday : Int) - 1))
    + 3600 * tm.hour + 60 * tm.minute + tm.sec

/-- Code-point bases of the 66 runs of Unicode decimal digits (category
`Nd`, Unicode 14.0.0, the database of the CPython that runs this code).
Each run is ten consecutive code points with digit values 0-9; `\d` in a
`str` regular expression matches exactly these characters, and `int()`
converts them by their decimal value. -/
def ndBases : List Nat :=
  [0x30, 0x660, 0x6f0, 0x7c0, 0x966, 0x9e6, 0xa66, 0xae6, 0xb66, 0xbe6,
   0xc66, 0xce6, 0xd66, 0xde6, 0xe50, 0xed0, 0xf20, 0x1040, 0x1090, 0x17e0,
   0x1810, 0x1946, 0x19d0, 0x1a80, 0x1a90, 0x1b50, 0x1bb0, 0x1c40, 0x1c50,
   0xa620, 0xa8d0, 0xa900, 0xa9d0, 0xa9f0, 0xaa50, 0xabf0, 0xff10, 0x104a0,
   0x10d30, 0x11066, 0x110f0, 0x11136, 0x111d0, 0x112f0, 0x11450, 0x114d0,
   0x11650, 0x116c0, 0x11730, 0x118e0, 0x11950, 0x11c50, 0x11d50, 0x11da0,
   0x16a60, 0x16ac0, 0x16b50, 0x1d7ce, 0x1d7d8, 0x1d7e2, 0x1d7ec, 0x1d7f6,
   0x1e140, 0x1e2f0, 0x1e950, 0x1fbf0]

/-- The decimal value of a Unicode decimal digit (`\d` in the `strptime`
regular expression, converted by `int()`), `none` for any other character. -/
def digitVal? (c : Char) : Option Nat :=
  ndBases.findSome? fun b =>
    if b ≤ c.toNat ∧ c.toNat ≤ b + 9 then some (c.toNat - b) else none

/-- The `[1-9]` character class (ASCII only) of the one-digit `%m`/`%d`
alternatives. -/
def digit19? (c : Char) : Option Nat :=
  if '1' ≤ c ∧ c ≤ '9' then some (c.toNat - 48) else none

/-- Two-digit zero-padded decimal rendering (`strftime` `%m`, `%d`, `%H`,
`%M`, `%S` for in-range values). -/
def two (n : Nat) : List Char :=
  [Nat.digitChar (n / 10 % 10), Nat.digitChar (n % 10)]

/-- Four-digit zero-padded decimal rendering (`strftime` `%Y` for years
up to 9999). -/
def four (n : Nat) : List Char :=
  [Nat.digitChar (n / 1000 % 10), Nat.digitChar (n / 100 % 10),
   Nat.digitChar (n / 10 % 10), Nat.digitChar (n % 10)]

/-- `strftime(time_fmt, tm)` for the fixed format
`%Y-%m-%dT%H:%M:%SZ`, for field values in the ranges `gmtime` produces. -/
def timeChars (tm : Tm) : List Char :=
  four tm.year ++ '-' :: two tm.month ++ '-' :: two tm.mday
    ++ 'T' :: two tm.hour ++ ':' :: two tm.minute ++ ':' :: two tm.sec ++ ['Z']

/-- The two-digit alternatives `1[0-2]|0[1-9]` of the `%m` group (the
one-digit alternative `[1-9]` is tried afterwards by `readField`). -/
def monthTwo (c1 c2 : Char) : Option Nat :=
  if c1 = '1' ∧ '0' ≤ c2 ∧ c2 ≤ '2' then some (10 + (c2.toNat - 48))
  else if c1 = '0' ∧ '1' ≤ c2 ∧ c2 ≤ '9' then some (c2.toNat - 48)
  else none

/-- The two-digit alternatives `3[01]|[1-2]\d|0[1-9]` of the `%d` group;
the second digit of `[1-2]\d` may be any Unicode decimal digit. -/
def dayTwo (c1 c2 : Char) : Option Nat :=
  if c1 = '3' ∧ ('0' ≤ c2 ∧ c2 ≤ '1') then some (30 + (c2.toNat - 48))
  else if '1' ≤ c1 ∧ c1 ≤ '2' then
    (digitVal? c2).map fun v => (c1.toNat - 48) * 10 + v
  else if c1 = '0' ∧ ('1' ≤ c2 ∧ c2 ≤ '9') then some (c2.toNat - 48)
  else none

/-- The two-digit alternatives `2[0-3]|[0-1]\d` of the `%H` group. -/
def hourTwo (c1 c2 : Char) : Option Nat :=
  if c1 = '2' ∧ ('0' ≤ c2 ∧ c2 ≤ '3') then some (20 + (c2.toNat - 48))
  else if '0' ≤ c1 ∧ c1 ≤ '1' then
    (digitVal? c2).map fun v => (c1.toNat - 48) * 10 + v
  else none

/-- The two-digit alternative `[0-5]\d` of the `%M` group. -/
def minuteTwo (c1 c2 : Char) : Option Nat :=
  if '0' ≤ c1 ∧ c1 ≤ '5' then
    (digitVal? c2).map fun v => (c1.toNat - 48) * 10 + v
  else none

/-- The two-digit alternatives `6[0-1]|[0-5]\d` of the `%S` group (`%S`
admits the leap seconds 60 and 61). -/
def secondTwo (c1 c2 : Char) : Option Nat :=
  if c1 = '6' ∧ ('0' ≤ c2 ∧ c2 ≤ '1') then some (60 + (c2.toNat - 48))
  else if '0' ≤ c1 ∧ c1 ≤ '5' then
    (digitVal? c2).map fun v => (c1.toNat - 48) * 10 + v
  else none

/-- One numeric group of the `strptime` regular expression: the two-digit
alternatives are tried first (they precede the one-digit alternative in
the pattern), then the one-digit alternative.  This committed choice is
exactly the behaviour of the backtracking regular-expression engine here:
every separator following a group (`-`, `:`, `T`/`t`, `Z`/`z`, or the end
of the data) is never a decimal digit, so whenever a two-digit alternative
could match, retreating to the one-digit alternative leaves a digit facing
the separator and the whole match fails anyway. -/
def readField (twoOk : Char → Char → Option Nat) (oneOk : Char → Option Nat) :
    List Char → Option (Nat × List Char)
  | c1 :: c2 :: r =>
    match twoOk c1 c2 with
    | some v => some (v, r)
    | none =>
      match oneOk c1 with
      | some v => some (v, c2 :: r)
      | none => none
  | [c1] =>
    match oneOk c1 with
    | some v => some (v, [])
    | none => none
  | [] => none

/-- The `%Y` group `\d\d\d\d`: exactly four Unicode decimal digits. -/
def readYear : List Char → Option (Nat × List Char)
  | c1 :: c2 :: c3 :: c4 :: r =>
    match digitVal? c1, digitVal? c2, digitVal? c3, digitVal? c4 with
    | some v1, some v2, some v3, some v4 =>
      some (((v1 * 10 + v2) * 10 + v3) * 10 + v4, r)
    | _, _, _, _ => none
  | _ => none

/-- `time.strptime(s, '%Y-%m-%dT%H:%M:%SZ')` on the slice taken by
`split`.  CPython's `_strptime` compiles the format to the regular
expression `(?P<Y>\d\d\d\d)-(?P<m>1[0-2]|0[1-9]|[1-9])-` `(?P<d>3[01]|[1-2]\d|0[1-9]|[1-9])T(?P<H>2[0-3]|[0-1]\d|\d):` `(?P<M>[0-5]\d|\d):(?P<S>6[0-1]|[0-5]\d|\d)Z` with `re.IGNORECASE`, so
the literals `T` and `Z` also match `t` and `z`, the numeric fields may be
one digit wide (which happens on slices shorter than 20 characters), and
`\d` matches any Unicode decimal digit; the match must consume the whole
slice (else "unconverted data remains").  `_strptime` then computes the
Julian day through `datetime.date(year, month, day)`, which validates
`1 ≤ year` and the day against the real calendar month length. -/
def parseTimestamp (s : List Char) : Option Tm :=
  match readYear s with
  | none => none
  | some (y, r1) =>
    match r1 with
    | '-' :: r2 =>
      match readField monthTwo digit19? r2 with
      | none => none
      | some (mo, r3) =>
        match r3 with
        | '-' :: r4 =>
          match readField dayTwo digit19? r4 with
          | none => none
          | some (dy, r5) =>
            match r5 with
            | c :: r6 =>
              if c = 'T' ∨ c = 't' then
                match readField hourTwo digitVal? r6 with
                | none => none
                | some (hr, r7) =>
                  match r7 with
                  | ':' :: r8 =>
                    match readField minuteTwo digitVal? r8 with
                    | none => none
                    | some (mi, r9) =>
                      match r9 with
                      | ':' :: r10 =>
                        match readField secondTwo digitVal? r10 with
                        | none => none
                        | some (sc, r11) =>
                          match r11 with
                          | [z] =>
                            if (z = 'Z' ∨ z = 'z') ∧ 1 ≤ y ∧ dy ≤ monthLength y mo then
                              some { year := y, month := mo, mday := dy,
                                     hour := hr, minute := mi, sec := sc }
                            else none
                          | _ => none
                      | _ => none
                  | _ => none
              else none
            | [] => none
        | _ => none
    | _ => none

/-- `nonce.split`: extract a timestamp from the given nonce string.
A `ValueError` in the source (from `strptime` or from the explicit
range check) is modelled as `Except.error`. -/
def split (nonce_string : String) : Except String (Int × String) :=
  let timestamp_str := nonce_string.data.take time_str_len
  match parseTimestamp timestamp_str with
  | none => .error "time data does not match format"
  | some tm =>
    let timestamp := timegm tm
    if timestamp < 0 then .error "time out of range"
    else .ok (timestamp, String.mk (nonce_string.data.drop time_str_len))

/-- `nonce.checkTimestamp`: is the timestamp that is part of the nonce
string within the allowed clock skew of `now`?  Any parse failure yields
`false`. -/
def checkTimestamp (nonce_string : String) (allowed_skew : Int) (now : Int) : Bool :=
  match split nonce_string with
  | .error _ => false
  | .ok (stamp, _) =>
    let past := now - allowed_skew
    let future := now + allowed_skew
    past ≤ stamp && stamp ≤ future

/-- `nonce.mkNonce`: the fixed-format rendering of `when` followed by a
salt.  The salt is the value of `make_nonce_salt()`, a random draw from
letters and digits; it is passed explicitly here so that the definition
is a function of the random choice. -/
def mkNonce (when : Nat) (salt : String) : String :=
  String.mk (timeChars (gmtime when)) ++ salt

/-- Unix timestamps whose UTC year still fits the four-digit `%Y` field:
`253402300800` is `10000-01-01T00:00:00Z`. -/
def ValidUnixTime (t : Nat) : Prop := t < 253402300800

end Nonce

namespace Nonce

theorem daysInYear_pos (y : Nat) : 0 < daysInYear y := by
  unfold daysInYear; split <;> omega

theorem daysInYear_ge (y : Nat) : 365 ≤ daysInYear y := by
  unfold daysInYear; split <;> omega

theorem daysInYear_add_400 (y : Nat) : daysInYear (y + 400) = daysInYear y := by
  have h4 : (y + 400) % 4 = y % 4 := by omega
  have h100 : (y + 400) % 100 = y % 100 := by omega
  have h400 : (y + 400) % 400 = y % 400 := by omega
  simp [daysInYear, isLeap, h4, h100, h400]

theorem sumDays_shift400 : ∀ (n s : Nat), sumDays (s + 400) n = sumDays s n
  | 0, _ => rfl
  | n + 1, s => by
    show daysInYear (s + 400) + sumDays (s + 400 + 1) n = daysInYear s + sumDays (s + 1) n
    rw [daysInYear_add_400, show s + 400 + 1 = s + 1 + 400 by omega, sumDays_shift400 n (s + 1)]

theorem sumDays_add : ∀ (m s n : Nat), sumDays s (m + n) = sumDays s m + sumDays (s + m) n
  | 0, s, n => by simp [sumDays]
  | m + 1, s, n => by
    show sumDays s (m + 1 + n) = daysInYear s + sumDays (s + 1) m + sumDays (s + (m + 1)) n
    rw [show m + 1 + n = (m + n) + 1 by omega]
    show daysInYear s + sumDays (s + 1) (m + n) = _
    rw [sumDays_add m (s + 1) n, show s + 1 + m = s + (m + 1) by omega, Nat.add_assoc]

set_option maxRecDepth 2000 in
theorem sumDays_1970_400 : sumDays 1970 400 = 146097 := by decide

theorem sumDays_1970_cycle : ∀ k n : Nat, sumDays 1970 (400 * k + n) = 146097 * k + sumDays 1970 n
  | 0, n => by simp
  | k + 1, n => by
    rw [show 400 * (k + 1) + n = 400 + (400 * k + n) by ring, sumDays_add 400 1970 (400 * k + n),
        sumDays_1970_400, show (1970 + 400 : Nat) = 1970 + 400 by rfl, sumDays_shift400,
        sumDays_1970_cycle k n]
    ring

theorem sumDays_1970_30 : sumDays 1970 30 = 10957 := by decide

theorem sumDays_1970_8030 : sumDays 1970 8030 = 2932897 := by
  have h := sumDays_1970_cycle 20 30
  norm_num [sumDays_1970_30] at h
  exact h

theorem yearAux_spec : ∀ (fuel y d y2 d2 : Nat), d ≤ fuel → yearAux fuel y d = (y2, d2) →
    y ≤ y2 ∧ d2 < daysInYear y2 ∧ sumDays y (y2 - y) + d2 = d := by
  intro fuel
  induction fuel with
  | zero =>
    intro y d y2 d2 hd heq
    have hd0 : d = 0 := by omega
    subst hd0
    simp [yearAux] at heq
    obtain ⟨h1, h2⟩ := heq
    subst h1; subst h2
    exact ⟨Nat.le_refl _, daysInYear_pos y, by simp [sumDays]⟩
  | succ fuel ih =>
    intro y d y2 d2 hd heq
    unfold yearAux at heq
    split at heq
    next hlt =>
      obtain ⟨h1, h2⟩ := Prod.mk.injEq .. ▸ heq
      subst h1; subst h2
      exact ⟨Nat.le_refl _, hlt, by simp [sumDays]⟩
    next hge =>
      have hpos := daysInYear_pos y
      have hd2 : d - daysInYear y ≤ fuel := by omega
      obtain ⟨ha, hb, hc⟩ := ih (y + 1) (d - daysInYear y) y2 d2 hd2 heq
      refine ⟨by omega, hb, ?_⟩
      have hy2 : y2 - y = (y2 - (y + 1)) + 1 := by omega
      rw [hy2]
      show daysInYear y + sumDays (y + 1) (y2 - (y + 1)) + d2 = d
      omega

end Nonce

namespace Nonce

theorem monthLength_pos (y m : Nat) : 0 < monthLength y m := by
  unfold monthLength; split
  · split <;> omega
  · split <;> omega

theorem monthLength_le_31 (y m : Nat) : monthLength y m ≤ 31 := by
  unfold monthLength; split
  · split <;> omega
  · split <;> omega

theorem sumMonths_twelve (y : Nat) : sumMonths y 12 = daysInYear y := by
  cases h : isLeap y <;>
    norm_num [sumMonths, monthLength, daysInYear, h]

theorem monthAux_spec (y : Nat) : ∀ (fuel m d m2 d2 : Nat), 1 ≤ m → m + fuel = 12 →
    sumMonths y (m - 1) + d < sumMonths y 12 → monthAux y fuel m d = (m2, d2) →
    1 ≤ m2 ∧ m2 ≤ 12 ∧ d2 < monthLength y m2 ∧
      sumMonths y (m2 - 1) + d2 = sumMonths y (m - 1) + d := by
  intro fuel
  induction fuel with
  | zero =>
    intro m d m2 d2 hm hfuel hlt heq
    have hm12 : m = 12 := by omega
    subst hm12
    simp [monthAux] at heq
    obtain ⟨h1, h2⟩ := heq
    subst h1; subst h2
    have h12 : sumMonths y 12 = sumMonths y 11 + monthLength y 12 := rfl
    norm_num at hlt
    exact ⟨by omega, by omega, by omega, rfl⟩
  | succ fuel ih =>
    intro m d m2 d2 hm hfuel hlt heq
    unfold monthAux at heq
    split at heq
    next hd =>
      obtain ⟨h1, h2⟩ := Prod.mk.injEq .. ▸ heq
      subst h1; subst h2
      exact ⟨hm, by omega, hd, rfl⟩
    next hd =>
      have hmlpos := monthLength_pos y m
      have hsm : sumMonths y m = sumMonths y (m - 1) + monthLength y m := by
        have : m = (m - 1) + 1 := by omega
        rw [this]
        show sumMonths y (m - 1) + monthLength y (m - 1 + 1) = _
        rw [← this]
      have hpre : sumMonths y ((m + 1) - 1) + (d - monthLength y m) < sumMonths y 12 := by
        simp only [Nat.add_sub_cancel]
        omega
      obtain ⟨ha, hb, hc, hd2⟩ := ih (m + 1) (d - monthLength y m) m2 d2 (by omega) (by omega) hpre heq
      refine ⟨ha, hb, hc, ?_⟩
      simp only [Nat.add_sub_cancel] at hd2
      omega

end Nonce

namespace Nonce

/-- All the facts about `gmtime` needed downstream: field bounds for a
valid timestamp, and that `timegm` inverts it. -/
theorem gmtime_spec (t : Nat) (ht : ValidUnixTime t) :
    1970 ≤ (gmtime t).year ∧ (gmtime t).year ≤ 9999 ∧
    1 ≤ (gmtime t).month ∧ (gmtime t).month ≤ 12 ∧
    1 ≤ (gmtime t).mday ∧ (gmtime t).mday ≤ monthLength (gmtime t).year (gmtime t).month ∧
    (gmtime t).hour ≤ 23 ∧ (gmtime t).minute ≤ 59 ∧ (gmtime t).sec ≤ 59 ∧
    timegm (gmtime t) = t := by
  unfold ValidUnixTime at ht
  obtain ⟨y, doy, hyd⟩ : ∃ y doy, yearAux (t / 86400) 1970 (t / 86400) = (y, doy) :=
    ⟨_, _, rfl⟩
  obtain ⟨mo, dom, hmd⟩ : ∃ mo dom, monthAux y 11 1 doy = (mo, dom) := ⟨_, _, rfl⟩
  have hdays : t / 86400 < 2932897 := by omega
  obtain ⟨hy1, hy2, hy3⟩ := yearAux_spec (t / 86400) 1970 (t / 86400) y doy (Nat.le_refl _) hyd
  have hy9999 : y ≤ 9999 := by
    by_contra hy
    have hsplit : y - 1970 = 8030 + (y - 10000) := by omega
    rw [hsplit, sumDays_add 8030 1970 (y - 10000), sumDays_1970_8030] at hy3
    omega
  have hpre : sumMonths y (1 - 1) + doy < sumMonths y 12 := by
    rw [sumMonths_twelve]
    simpa [sumMonths] using hy2
  obtain ⟨hm1, hm2, hm3, hm4⟩ := monthAux_spec y 11 1 doy mo dom (Nat.le_refl _) rfl hpre hmd
  simp only [sumMonths, Nat.zero_add] at hm4
  have hgm : gmtime t =
      Tm.mk y mo (dom + 1) (t % 86400 / 3600) (t % 86400 % 3600 / 60) (t % 86400 % 60) := by
    unfold gmtime
    simp [hyd, hmd]
  rw [hgm]
  simp only
  have hrem : t % 86400 < 86400 := Nat.mod_lt _ (by omega)
  refine ⟨hy1, hy9999, hm1, hm2, by omega, by omega, by omega, by omega, by omega, ?_⟩
  unfold timegm yearsOffset
  simp only
  rw [if_pos hy1]
  have hmo : mo - 1 + 1 = mo := by omega
  push_cast
  have hsum : (sumMonths y (mo - 1) : Int) + ((dom : Int) + 1 - 1) = (doy : Int) := by
    have := hm4
    omega
  have hdayeq : (sumDays 1970 (y - 1970) : Int) + (doy : Int) = ((t / 86400 : Nat) : Int) := by
    exact_mod_cast congrArg (Nat.cast (R := Int)) hy3
  omega

end Nonce

namespace Nonce

theorem digitVal?_digitChar (d : Nat) (h : d < 10) :
    digitVal? (Nat.digitChar d) = some d := by
  interval_cases d <;> rfl

theorem readYear_four (y : Nat) (r : List Char) (h : y ≤ 9999) :
    readYear (four y ++ r) = some (y, r) := by
  simp only [four, List.cons_append, List.nil_append, readYear,
    digitVal?_digitChar _ (Nat.mod_lt _ (by omega))]
  have hy : ((y / 1000 % 10 * 10 + y / 100 % 10) * 10 + y / 10 % 10) * 10 + y % 10 = y := by
    omega
  rw [hy]

theorem readField_month (mo : Nat) (r : List Char) (h1 : 1 ≤ mo) (h2 : mo ≤ 12) :
    readField monthTwo digit19? (two mo ++ r) = some (mo, r) := by
  interval_cases mo <;> rfl

theorem readField_day (dy : Nat) (r : List Char) (h1 : 1 ≤ dy) (h2 : dy ≤ 31) :
    readField dayTwo digit19? (two dy ++ r) = some (dy, r) := by
  interval_cases dy <;> rfl

theorem readField_hour (hr : Nat) (r : List Char) (h : hr ≤ 23) :
    readField hourTwo digitVal? (two hr ++ r) = some (hr, r) := by
  interval_cases hr <;> rfl

theorem readField_minute (mi : Nat) (r : List Char) (h : mi ≤ 59) :
    readField minuteTwo digitVal? (two mi ++ r) = some (mi, r) := by
  interval_cases mi <;> rfl

theorem readField_second (sc : Nat) (r : List Char) (h : sc ≤ 59) :
    readField secondTwo digitVal? (two sc ++ r) = some (sc, r) := by
  interval_cases sc <;> rfl

theorem parse_timeChars (tm : Tm)
    (hy1 : 1 ≤ tm.year) (hy2 : tm.year ≤ 9999)
    (hm1 : 1 ≤ tm.month) (hm2 : tm.month ≤ 12)
    (hd1 : 1 ≤ tm.mday) (hd2 : tm.mday ≤ monthLength tm.year tm.month)
    (hh : tm.hour ≤ 23) (hmi : tm.minute ≤ 59) (hs : tm.sec ≤ 59) :
    parseTimestamp (timeChars tm) = some tm := by
  obtain ⟨y, mo, dy, hr, mi, sc⟩ := tm
  simp only at hy1 hy2 hm1 hm2 hd1 hd2 hh hmi hs
  have hd31 : dy ≤ 31 := le_trans hd2 (monthLength_le_31 y mo)
  show parseTimestamp (four y ++ '-' :: (two mo ++ '-' :: (two dy
      ++ 'T' :: (two hr ++ ':' :: (two mi ++ ':' :: (two sc ++ ['Z'])))))) = _
  unfold parseTimestamp
  rw [readYear_four y _ hy2]
  simp only
  rw [readField_month mo _ hm1 hm2]
  simp only
  rw [readField_day dy _ hd1 hd31]
  simp only
  rw [if_pos (Or.inl trivial)]
  rw [readField_hour hr _ hh]
  simp only
  rw [readField_minute mi _ hmi]
  simp only
  rw [readField_second sc _ hs]
  simp only
  rw [if_pos ⟨Or.inl trivial, by omega, hd2⟩]

end Nonce

namespace Nonce

theorem timeChars_length (tm : Tm) : (timeChars tm).length = 20 := by
  simp [timeChars, four, two]

theorem split_mkNonce (t : Nat) (ht : ValidUnixTime t) (salt : String) :
    split (mkNonce t salt) = .ok ((t : Int), salt) := by
  obtain ⟨h1, h2, h3, h4, h5, h6, h7, h8, h9, h10⟩ := gmtime_spec t ht
  have hdata : (mkNonce t salt).data = timeChars (gmtime t) ++ salt.data := by
    simp [mkNonce]
  have htake : (mkNonce t salt).data.take time_str_len = timeChars (gmtime t) := by
    rw [hdata, time_str_len, ← timeChars_length (gmtime t), List.take_left]
  have hdrop : (mkNonce t salt).data.drop time_str_len = salt.data := by
    rw [hdata, time_str_len, ← timeChars_length (gmtime t), List.drop_left]
  have hy1970 : (1 : Nat) ≤ (gmtime t).year := by omega
  unfold split
  rw [htake, hdrop]
  simp only [parse_timeChars (gmtime t) hy1970 h2 h3 h4 h5 h6 h7 h8 h9, h10]
  rw [if_neg (by omega)]

end Nonce

namespace Nonce

theorem split_eq_of_parse_none (s : String)
    (hp : parseTimestamp (s.data.take time_str_len) = none) :
    split s = .error "time data does not match format" := by
  simp only [split, hp]

theorem split_eq_of_parse_neg (s : String) (tm : Tm)
    (hp : parseTimestamp (s.data.take time_str_len) = some tm)
    (hneg : timegm tm < 0) : split s = .error "time out of range" := by
  simp only [split, hp]
  rw [if_pos hneg]

theorem split_eq_of_parse_ok (s : String) (tm : Tm)
    (hp : parseTimestamp (s.data.take time_str_len) = some tm)
    (hnn : ¬ timegm tm < 0) :
    split s = .ok (timegm tm, String.mk (s.data.drop time_str_len)) := by
  simp only [split, hp]
  rw [if_neg hnn]

/-- C1: For every valid Unix timestamp `t`, every non-negative skew and every
timestamp `now`, `checkTimestamp (mkNonce t) skew now` is true if and only if
`now - skew ≤ t ≤ now + skew`, whatever salt the nonce was minted with. -/
theorem checkTimestamp_mkNonce_iff_window (t : Nat) (ht : ValidUnixTime t) (salt : String)
    (skew now : Int) (hskew : 0 ≤ skew) :
    checkTimestamp (mkNonce t salt) skew now = true ↔
      now - skew ≤ (t : Int) ∧ (t : Int) ≤ now + skew := by
  clear hskew
  unfold checkTimestamp
  rw [split_mkNonce t ht salt]
  simp [Bool.and_eq_true, decide_eq_true_eq]

/-- Witness for C1 at `t = 1234567890`. -/
theorem checkTimestamp_mkNonce_iff_window_witness :
    checkTimestamp (mkNonce 1234567890 "QvN5Tq") 18000 1234567899 = true :=
  (checkTimestamp_mkNonce_iff_window 1234567890 (by norm_num [ValidUnixTime]) "QvN5Tq"
    18000 1234567899 (by norm_num)).mpr (by constructor <;> norm_num)

/-- C7: `split` fails exactly when the leading 20-character substring does
not match the UTC timestamp format as `strptime` accepts it (the format's
regular expression compiled case-insensitively, with one- or two-digit
fields and Unicode decimal digits where the pattern allows them, consuming
the whole slice, and validated against the real calendar) or parses to a
negative Unix time; otherwise it returns the parsed timestamp and the
remaining salt substring. -/
theorem split_error_iff (s : String) :
    ((∃ e, split s = .error e) ↔
      parseTimestamp (s.data.take time_str_len) = none ∨
        ∃ tm, parseTimestamp (s.data.take time_str_len) = some tm ∧ timegm tm < 0) ∧
    (∀ tm, parseTimestamp (s.data.take time_str_len) = some tm → 0 ≤ timegm tm →
      split s = .ok (timegm tm, String.mk (s.data.drop time_str_len))) := by
  cases hp : parseTimestamp (s.data.take time_str_len)
  · refine ⟨⟨fun _ => Or.inl rfl, fun _ => ⟨_, split_eq_of_parse_none s hp⟩⟩, ?_⟩
    intro tm2 htm2
    exact absurd htm2 (by simp)
  · rename_i tm
    by_cases hneg : timegm tm < 0
    · refine ⟨⟨fun _ => Or.inr ⟨tm, rfl, hneg⟩,
        fun _ => ⟨_, split_eq_of_parse_neg s tm hp hneg⟩⟩, ?_⟩
      intro tm2 htm2 hnn
      obtain rfl : tm = tm2 := by injection htm2
      exact absurd hneg (by omega)
    · constructor
      · constructor
        · intro ⟨e, he⟩
          rw [split_eq_of_parse_ok s tm hp hneg] at he
          exact absurd he (by simp)
        · intro hor
          rcases hor with h | ⟨tm2, htm2, hneg2⟩
          · exact absurd h (by simp)
          · obtain rfl : tm = tm2 := by injection htm2
            exact absurd hneg2 hneg
      · intro tm2 htm2 hnn
        obtain rfl : tm = tm2 := by injection htm2
        exact split_eq_of_parse_ok s tm hp hneg

/-- Witness for C7: a malformed nonce fails, a well-formed one splits. -/
theorem split_error_iff_witness :
    (∃ e, split "not-a-date-blah" = .error e) ∧
      split "2009-02-13T23:31:30Zfoo" =
        .ok (timegm (Tm.mk 2009 2 13 23 31 30), "foo") :=
  ⟨(split_error_iff "not-a-date-blah").1.mpr (Or.inl (by decide)),
   (split_error_iff "2009-02-13T23:31:30Zfoo").2 (Tm.mk 2009 2 13 23 31 30)
     (by decide) (by decide)⟩


/-- C8: `checkTimestamp` is total (its result is one of the two booleans) and
returns `false` on every input on which `split` fails. -/
theorem checkTimestamp_total (s : String) (skew now : Int) :
    (checkTimestamp s skew now = true ∨ checkTimestamp s skew now = false) ∧
    ((∃ e, split s = .error e) → checkTimestamp s skew now = false) := by
  constructor
  · cases h : checkTimestamp s skew now
    · exact Or.inr rfl
    · exact Or.inl rfl
  · intro ⟨e, he⟩
    unfold checkTimestamp
    rw [he]

/-- Witness for C8 on a nonce that fails to parse. -/
theorem checkTimestamp_total_witness : checkTimestamp "not-a-date-blah" 18000 0 = false :=
  (checkTimestamp_total "not-a-date-blah" 18000 0).2
    ⟨"time data does not match format", rfl⟩

/-- C10: the result of `checkTimestamp` depends only on the first 20
characters of the nonce string; the salt portion never influences validity. -/
theorem checkTimestamp_salt_independent (s1 s2 : String) (skew now : Int)
    (h : s1.data.take 20 = s2.data.take 20) :
    checkTimestamp s1 skew now = checkTimestamp s2 skew now := by
  have h20 : s1.data.take time_str_len = s2.data.take time_str_len := h
  cases hp : parseTimestamp (s2.data.take time_str_len)
  · have hp1 : parseTimestamp (s1.data.take time_str_len) = none := by rw [h20, hp]
    unfold checkTimestamp
    rw [split_eq_of_parse_none s1 hp1, split_eq_of_parse_none s2 hp]
  · rename_i tm
    have hp1 : parseTimestamp (s1.data.take time_str_len) = some tm := by rw [h20, hp]
    by_cases hneg : timegm tm < 0
    · unfold checkTimestamp
      rw [split_eq_of_parse_neg s1 tm hp1 hneg, split_eq_of_parse_neg s2 tm hp hneg]
    · unfold checkTimestamp
      rw [split_eq_of_parse_ok s1 tm hp1 hneg, split_eq_of_parse_ok s2 tm hp hneg]

/-- Witness for C10: two nonces agreeing on the timestamp, with different
salts. -/
theorem checkTimestamp_salt_independent_witness :
    checkTimestamp "2009-02-13T23:31:30ZAAAAAA" 18000 0 =
      checkTimestamp "2009-02-13T23:31:30Zz9" 18000 0 :=
  checkTimestamp_salt_independent "2009-02-13T23:31:30ZAAAAAA"
    "2009-02-13T23:31:30Zz9" 18000 0 (by decide)

end Nonce

namespace Trustroot

/-!
The trust-root / return-URL verification subsystem.  The module
`openid/server/trustroot.py` itself is not part of the source tree (only
its tests are), so the definitions below are modelled from the
specification, section 4.5/4.6, and checked against the behaviour pinned
by `test_rpverify.py`.
-/

/-- Modelled from the spec: a parsed realm. `openid.server.trustroot.TrustRoot`
is not under `src/`; its parsed URL components are scheme, host (with the
single leading wildcard label `*.` stripped into the `wildcard` flag),
port and path, plus the original realm string. -/
structure TrustRoot where
  unparsed : String
  scheme : String
  host : String
  port : Option Nat
  path : String
  wildcard : Bool
  deriving DecidableEq, Repr

/-- Decimal value of a digit string. -/
def digitsToNat (ds : List Char) : Nat :=
  ds.foldl (fun a c => a * 10 + (c.toNat - 48)) 0

/-- Split a host into its dot-separated labels. -/
def splitDotsAux : List Char → List Char → List String
  | [], acc => [String.mk acc.reverse]
  | c :: rest, acc =>
    if c = '.' then String.mk acc.reverse :: splitDotsAux rest []
    else splitDotsAux rest (c :: acc)

/-- Dot-separated labels of a host string. -/
def splitDots (s : String) : List String := splitDotsAux s.data []

/-- Modelled from the spec: `TrustRoot.parse` (not under `src/`).  Parse a
realm string as an absolute URL `scheme://host[:port]path`; return `none` if
it is not parseable or the port is invalid.  A single wildcard label `*.`
may prefix the host; any other use of `*` is not recognized as a wildcard.
This function computes the (scheme, host, port, path, wildcard) components. -/
def parseComponents (trust_root : String) :
    Option (String × String × Option Nat × String × Bool) :=
  let cs := trust_root.data
  let sch := cs.takeWhile (fun c => c != ':')
  match cs.dropWhile (fun c => c != ':') with
  | ':' :: '/' :: '/' :: rest =>
    if sch = [] ∨ ¬ sch.all (fun c => c.isAlpha) then none
    else
      let authority := rest.takeWhile (fun c => c != '/')
      let pathChars := rest.dropWhile (fun c => c != '/')
      let path := if pathChars = [] then "/" else String.mk pathChars
      let wchp : Bool × List Char :=
        match authority with
        | '*' :: '.' :: hp => (true, hp)
        | _ => (false, authority)
      let hostChars := wchp.2.takeWhile (fun c => c != ':')
      match wchp.2.dropWhile (fun c => c != ':') with
      | [] => some (String.mk sch, String.mk hostChars, none, path, wchp.1)
      | ':' :: ds =>
        if ds ≠ [] ∧ ds.all Char.isDigit then
          some (String.mk sch, String.mk hostChars, some (digitsToNat ds), path, wchp.1)
        else none
      | _ => none
  | _ => none

/-- Assemble a `TrustRoot` from the parsed components, keeping the original
realm string as `unparsed`. -/
def TrustRoot.parse (trust_root : String) : Option TrustRoot :=
  (parseComponents trust_root).map fun c =>
    ⟨trust_root, c.1, c.2.1, c.2.2.1, c.2.2.2.1, c.2.2.2.2⟩

/-- Modelled from the spec: `TrustRoot.isSane` (not under `src/`).  True iff
the scheme is http/https, the host (beyond any wildcard) has at least two
non-empty labels, and a wildcard realm does not cover a too-short public
suffix (two-letter top-level domain with a second level of at most three
characters). -/
def TrustRoot.isSane (tr : TrustRoot) : Bool :=
  (tr.scheme == "http" || tr.scheme == "https") &&
    (match (splitDots tr.host).reverse with
     | tld :: sld :: rest =>
       (tld :: sld :: rest).all (fun l => l != "") &&
         (!tr.wildcard || !(tld.length == 2 && decide (sld.length ≤ 3)))
     | _ => false)

/-- Rendering of an optional port for URL reconstruction. -/
def portFragment : Option Nat → String
  | none => ""
  | some p => ":" ++ toString p

/-- Modelled from the spec: `TrustRoot.buildDiscoveryURL` (not under
`src/`).  If the realm has a wildcard, substitute the literal host label
`www` for the wildcard label, preserving scheme, port and path; else
return the realm's own URL unchanged. -/
def TrustRoot.buildDiscoveryURL (tr : TrustRoot) : String :=
  if tr.wildcard then
    tr.scheme ++ "://www." ++ tr.host ++ portFragment tr.port ++ tr.path
  else tr.unparsed

/-- Modelled from the spec: `returnToMatches` (not under `src/`).  True iff
`return_to` equals one of the allowed URLs exactly, or begins with one of
them followed immediately by `/`.  No wildcard expansion happens at this
layer. -/
def returnToMatches (allowed_return_urls : List String) (return_to : String) : Bool :=
  allowed_return_urls.any fun u =>
    return_to == u || List.isPrefixOf (u.data ++ ['/']) return_to.data

/-- Outcome of the external discovery collaborator: a list of allowed
return URLs in document order, or the signal that discovery was redirected
to a different URL (`RealmVerificationRedirected` in the tests). -/
inductive DiscoOutcome where
  | ok (urls : List String)
  | redirected (requested final : String)

/-- Modelled from the spec: `verifyReturnTo` (not under `src/`), with the
list of discovery URLs actually queried made explicit as the second
component.  Parse the realm; if unparseable or insane, fail closed without
attempting discovery.  Else query discovery once at the realm's discovery
URL; a reported redirect is a verification failure, never followed. -/
def verifyReturnToAux (realm return_to : String)
    (disco : String → DiscoOutcome) : Bool × List String :=
  match TrustRoot.parse realm with
  | none => (false, [])
  | some tr =>
    if tr.isSane then
      match disco tr.buildDiscoveryURL with
      | .ok urls => (returnToMatches urls return_to, [tr.buildDiscoveryURL])
      | .redirected _ _ => (false, [tr.buildDiscoveryURL])
    else (false, [])

/-- The boolean verification result. -/
def verifyReturnTo (realm return_to : String) (disco : String → DiscoOutcome) : Bool :=
  (verifyReturnToAux realm return_to disco).1

/-- The discovery calls performed by `verifyReturnTo`. -/
def verifyReturnToCalls (realm return_to : String) (disco : String → DiscoOutcome) : List String :=
  (verifyReturnToAux realm return_to disco).2

end Trustroot

namespace Trustroot

theorem parse_unparsed (realm : String) (tr : TrustRoot)
    (h : TrustRoot.parse realm = some tr) : tr.unparsed = realm := by
  unfold TrustRoot.parse at h
  cases hp : parseComponents realm
  · rw [hp] at h
    exact absurd h (by simp)
  · rw [hp] at h
    injection h with h2
    rw [← h2]

theorem verifyReturnToAux_of_parse_none (realm return_to : String)
    (disco : String → DiscoOutcome) (hnone : TrustRoot.parse realm = none) :
    verifyReturnToAux realm return_to disco = (false, []) := by
  unfold verifyReturnToAux
  rw [hnone]

theorem verifyReturnToAux_of_insane (realm return_to : String)
    (disco : String → DiscoOutcome) (tr : TrustRoot)
    (hsome : TrustRoot.parse realm = some tr) (hinsane : tr.isSane = false) :
    verifyReturnToAux realm return_to disco = (false, []) := by
  unfold verifyReturnToAux
  rw [hsome]
  simp only [hinsane]
  rfl

theorem verifyReturnToAux_of_redirect (realm return_to : String)
    (disco : String → DiscoOutcome) (tr : TrustRoot) (u v : String)
    (hsome : TrustRoot.parse realm = some tr) (hsane : tr.isSane = true)
    (hred : disco tr.buildDiscoveryURL = .redirected u v) :
    verifyReturnToAux realm return_to disco = (false, [tr.buildDiscoveryURL]) := by
  unfold verifyReturnToAux
  rw [hsome]
  simp only [hsane, if_true, hred]

/-- C2: `verifyReturnTo` fails closed, with no discovery call, when the
realm is unparseable or insane; and whenever discovery reports a redirect,
the result is false. -/
theorem verifyReturnTo_fail_closed (realm return_to : String)
    (disco : String → DiscoOutcome) :
    ((TrustRoot.parse realm = none ∨
        ∃ tr, TrustRoot.parse realm = some tr ∧ tr.isSane = false) →
      verifyReturnTo realm return_to disco = false ∧
        verifyReturnToCalls realm return_to disco = []) ∧
    (∀ tr u v, TrustRoot.parse realm = some tr →
      disco tr.buildDiscoveryURL = .redirected u v →
      verifyReturnTo realm return_to disco = false) := by
  constructor
  · intro hbad
    rcases hbad with hnone | ⟨tr, hsome, hinsane⟩
    · rw [verifyReturnTo, verifyReturnToCalls,
        verifyReturnToAux_of_parse_none realm return_to disco hnone]
      exact ⟨rfl, rfl⟩
    · rw [verifyReturnTo, verifyReturnToCalls,
        verifyReturnToAux_of_insane realm return_to disco tr hsome hinsane]
      exact ⟨rfl, rfl⟩
  · intro tr u v hsome hred
    cases hs : tr.isSane
    · rw [verifyReturnTo, verifyReturnToAux_of_insane realm return_to disco tr hsome hs]
    · rw [verifyReturnTo,
        verifyReturnToAux_of_redirect realm return_to disco tr u v hsome hs hred]

/-- Witness for C2: an unparseable realm, and a redirecting discovery. -/
theorem verifyReturnTo_fail_closed_witness :
    (verifyReturnTo "" "http://example.com/" (fun _ => DiscoOutcome.ok []) = false ∧
      verifyReturnToCalls "" "http://example.com/" (fun _ => DiscoOutcome.ok []) = []) ∧
    verifyReturnTo "http://*.example.com/" "http://www.example.com/foo"
      (fun u => DiscoOutcome.redirected u "http://redirected.invalid") = false :=
  ⟨(verifyReturnTo_fail_closed "" "http://example.com/"
      (fun _ => DiscoOutcome.ok [])).1 (Or.inl (by decide)),
   (verifyReturnTo_fail_closed "http://*.example.com/" "http://www.example.com/foo"
      (fun u => DiscoOutcome.redirected u "http://redirected.invalid")).2
     (TrustRoot.mk "http://*.example.com/" "http" "example.com" none "/" true)
     "http://www.example.com/" "http://redirected.invalid" (by decide) rfl⟩

end Trustroot

namespace Trustroot

/-- C9: for every parseable realm, `buildDiscoveryURL` substitutes the
literal host label `www` for the wildcard label, preserving scheme, port
and path, and returns the realm's own URL unchanged when there is no
wildcard; in particular on the three example realms of the spec. -/
theorem buildDiscoveryURL_spec (realm : String) (tr : TrustRoot)
    (h : TrustRoot.parse realm = some tr) :
    ((tr.wildcard = true →
        tr.buildDiscoveryURL =
          tr.scheme ++ "://www." ++ tr.host ++ portFragment tr.port ++ tr.path) ∧
      (tr.wildcard = false → tr.buildDiscoveryURL = realm)) ∧
    (TrustRoot.parse "http://*.example.com/foo").map TrustRoot.buildDiscoveryURL =
        some "http://www.example.com/foo" ∧
    (TrustRoot.parse "http://*.example.com:8001/foo").map TrustRoot.buildDiscoveryURL =
        some "http://www.example.com:8001/foo" ∧
    (TrustRoot.parse "http://example.com/foo").map TrustRoot.buildDiscoveryURL =
        some "http://example.com/foo" := by
  refine ⟨⟨?_, ?_⟩, by decide, by decide, by decide⟩
  · intro hw
    unfold TrustRoot.buildDiscoveryURL
    rw [if_pos hw]
  · intro hw
    unfold TrustRoot.buildDiscoveryURL
    rw [if_neg (by simp [hw]), parse_unparsed realm tr h]

/-- Witness for C9 at the wildcard realm with a port. -/
theorem buildDiscoveryURL_spec_witness :
    (TrustRoot.mk "http://*.example.com:8001/foo" "http" "example.com"
        (some 8001) "/foo" true).buildDiscoveryURL =
      "http" ++ "://www." ++ "example.com" ++ portFragment (some 8001) ++ "/foo" :=
  (buildDiscoveryURL_spec "http://*.example.com:8001/foo"
    (TrustRoot.mk "http://*.example.com:8001/foo" "http" "example.com"
      (some 8001) "/foo" true) (by decide)).1.1 rfl

/-- C3: `returnToMatches` is true iff the return URL equals an allowed URL
exactly or extends one at a `/` path-segment boundary; a bare prefix
extension does not match and a wildcard in an allowed URL is not expanded. -/
theorem returnToMatches_iff (allowed : List String) (return_to : String) :
    (returnToMatches allowed return_to = true ↔
      ∃ u ∈ allowed, return_to = u ∨ (u.data ++ ['/']) <+: return_to.data) ∧
    returnToMatches ["http://example.com/return.to"] "http://example.com/return.toXYZ" = false ∧
    returnToMatches ["http://*.example.com/return.to"] "http://example.com/return.to" = false := by
  refine ⟨?_, by decide, by decide⟩
  simp [returnToMatches, List.any_eq_true, beq_iff_eq, List.isPrefixOf_iff_prefix]

end Trustroot

namespace Consumer

/-!
The association negotiation protocol.  `openid/consumer/consumer.py` and
`openid/association.py` are not part of the source tree (only their tests
are), so the definitions below are modelled from the specification,
sections 4.1/4.3, and checked against the behaviour pinned by
`test_negotiation.py`.
-/

/-- The association data entity of the spec's data model. -/
structure Association where
  handle : String
  secret : List Nat
  issued : Int
  lifetime : Nat
  assoc_type : String
  deriving DecidableEq, Repr

/-- The fields of an error response message that the negotiation protocol
reads: `error_code`, and the provider's proposed fallback pair. -/
structure ErrorResponse where
  error_code : Option String
  assoc_type : Option String
  session_type : Option String
  deriving DecidableEq, Repr

/-- What one call of the external `_requestAssociation` collaborator
produces: a fully formed association, or an error response message. -/
inductive AssocResponse where
  | success (assoc : Association)
  | failure (err : ErrorResponse)

/-- Severity of an emitted log entry. -/
inductive LogLevel where
  | warning
  | error
  deriving DecidableEq, Repr

/-- Modelled from the spec: `GenericConsumer._negotiateAssociation` (not
under `src/`).  `version2` is whether the endpoint speaks OpenID 2;
`allowed` is the negotiator's ordered allowed-type catalogue; `respond n`
is the outcome of the (n+1)-th external association request.  The result
carries the association (or `none`), the log entries emitted, and the
`(assoc_type, session_type)` pair used by each request actually made.

On an error response: under OpenID 2 with `error_code` equal to
`unsupported-type`, a warning is logged; if the proposed fallback pair is
incomplete a second warning is logged and no retry happens; if it is not
allowed by the negotiator a different warning is logged and no retry
happens; otherwise exactly one retry with the proposed pair is made, whose
error (if any) is terminal and logged at error level.  Any other error is
a terminal server error, logged once at error level. -/
def negotiateAssociation (version2 : Bool) (allowed : List (String × String))
    (respond : Nat → AssocResponse) :
    Option Association × List (LogLevel × String) × List (String × String) :=
  let pref := allowed.headD ("", "")
  match respond 0 with
  | .success assoc => (some assoc, [], [pref])
  | .failure err =>
    if version2 && err.error_code == some "unsupported-type" then
      let unsupported := (LogLevel.warning, "Unsupported association type")
      match err.assoc_type, err.session_type with
      | some assoc_type, some session_type =>
        if allowed.contains (assoc_type, session_type) then
          match respond 1 with
          | .success assoc =>
            (some assoc, [unsupported], [pref, (assoc_type, session_type)])
          | .failure _ =>
            (none,
             [unsupported,
              (LogLevel.error, "Server refused its suggested association type")],
             [pref, (assoc_type, session_type)])
        else
          (none,
           [unsupported,
            (LogLevel.warning, "Server sent unsupported session/association type")],
           [pref])
      | _, _ =>
        (none,
         [unsupported,
          (LogLevel.warning,
           "Server responded with unsupported association session but did not supply a fallback.")],
         [pref])
    else
      (none, [(LogLevel.error, "Server error when requesting an association")], [pref])

end Consumer

namespace Consumer

/-- C4: under OpenID 2, an `unsupported-type` error naming a pair the
negotiator allows leads to exactly one retry with that pair; if the retry
returns an association, it is the overall result and exactly one
warning-level log entry was emitted. -/
theorem negotiate_unsupported_retry (allowed : List (String × String))
    (a s : String) (assoc : Association) (respond : Nat → AssocResponse)
    (hallowed : allowed.contains (a, s) = true)
    (h0 : respond 0 = .failure (ErrorResponse.mk (some "unsupported-type") (some a) (some s)))
    (h1 : respond 1 = .success assoc) :
    (negotiateAssociation true allowed respond).1 = some assoc ∧
    (negotiateAssociation true allowed respond).2.2 = [allowed.headD ("", ""), (a, s)] ∧
    (negotiateAssociation true allowed respond).2.1.length = 1 ∧
    ∀ l ∈ (negotiateAssociation true allowed respond).2.1, l.1 = LogLevel.warning := by
  have hmem : (a, s) ∈ allowed := by simpa using hallowed
  unfold negotiateAssociation
  rw [h0]
  simp [hmem, h1]

/-- Witness for C4 on the pair of the spec's negotiation scenario. -/
theorem negotiate_unsupported_retry_witness :
    (negotiateAssociation true [("HMAC-SHA1", "DH-SHA1")]
      (fun n => match n with
        | 0 => .failure (ErrorResponse.mk (some "unsupported-type")
            (some "HMAC-SHA1") (some "DH-SHA1"))
        | _ => .success (Association.mk "handle" [] 0 10000 "HMAC-SHA1"))).1 =
      some (Association.mk "handle" [] 0 10000 "HMAC-SHA1") :=
  (negotiate_unsupported_retry [("HMAC-SHA1", "DH-SHA1")] "HMAC-SHA1" "DH-SHA1"
    (Association.mk "handle" [] 0 10000 "HMAC-SHA1")
    (fun n => match n with
      | 0 => .failure (ErrorResponse.mk (some "unsupported-type")
          (some "HMAC-SHA1") (some "DH-SHA1"))
      | _ => .success (Association.mk "handle" [] 0 10000 "HMAC-SHA1"))
    (by decide) rfl rfl).1

/-- C5: a single `negotiateAssociation` call makes at most two external
association requests; and when the one permitted retry also yields an
error response, the result is `none` with exactly two requests made. -/
theorem negotiate_at_most_two_requests (version2 : Bool)
    (allowed : List (String × String)) (respond : Nat → AssocResponse) :
    (negotiateAssociation version2 allowed respond).2.2.length ≤ 2 ∧
    (∀ a s e2, allowed.contains (a, s) = true →
      respond 0 = .failure (ErrorResponse.mk (some "unsupported-type") (some a) (some s)) →
      respond 1 = .failure e2 → version2 = true →
      (negotiateAssociation version2 allowed respond).1 = none ∧
      (negotiateAssociation version2 allowed respond).2.2.length = 2) := by
  constructor
  · unfold negotiateAssociation
    repeat' split
    all_goals simp
  · intro a s e2 hallowed h0 h1 hv
    subst hv
    have hmem : (a, s) ∈ allowed := by simpa using hallowed
    unfold negotiateAssociation
    rw [h0]
    simp [hmem, h1]

/-- Witness for C5: retry also errors, so two requests and no result. -/
theorem negotiate_at_most_two_requests_witness :
    (negotiateAssociation true [("HMAC-SHA1", "DH-SHA1")]
      (fun n => match n with
        | 0 => AssocResponse.failure (ErrorResponse.mk (some "unsupported-type")
            (some "HMAC-SHA1") (some "DH-SHA1"))
        | _ => AssocResponse.failure (ErrorResponse.mk none none none))).1 = none ∧
    (negotiateAssociation true [("HMAC-SHA1", "DH-SHA1")]
      (fun n => match n with
        | 0 => AssocResponse.failure (ErrorResponse.mk (some "unsupported-type")
            (some "HMAC-SHA1") (some "DH-SHA1"))
        | _ => AssocResponse.failure (ErrorResponse.mk none none none))).2.2.length = 2 :=
  (negotiate_at_most_two_requests true [("HMAC-SHA1", "DH-SHA1")]
    (fun n => match n with
      | 0 => AssocResponse.failure (ErrorResponse.mk (some "unsupported-type")
          (some "HMAC-SHA1") (some "DH-SHA1"))
      | _ => AssocResponse.failure (ErrorResponse.mk none none none))).2
    "HMAC-SHA1" "DH-SHA1" (ErrorResponse.mk none none none)
    (by decide) rfl rfl rfl

/-- C6: under OpenID 2, an `unsupported-type` error that omits the
proposed `assoc_type` or `session_type` yields `none` with no retry, after
a warning log plus a no-fallback-supplied log. -/
theorem negotiate_no_fallback (allowed : List (String × String))
    (respond : Nat → AssocResponse) (err : ErrorResponse)
    (h0 : respond 0 = .failure err)
    (hcode : err.error_code = some "unsupported-type")
    (hmiss : err.assoc_type = none ∨ err.session_type = none) :
    (negotiateAssociation true allowed respond).1 = none ∧
    (negotiateAssociation true allowed respond).2.1 =
      [(LogLevel.warning, "Unsupported association type"),
       (LogLevel.warning,
        "Server responded with unsupported association session but did not supply a fallback.")] ∧
    (negotiateAssociation true allowed respond).2.2.length = 1 := by
  obtain ⟨ec, at2, st2⟩ := err
  simp only at hcode hmiss
  subst hcode
  unfold negotiateAssociation
  rw [h0]
  cases at2 with
  | none => simp
  | some a =>
    rcases hmiss with hmiss | hmiss
    · exact absurd hmiss (by simp)
    · subst hmiss
      simp

/-- Witness for C6 with a missing proposed association type. -/
theorem negotiate_no_fallback_witness :
    (negotiateAssociation true [("HMAC-SHA1", "DH-SHA1")]
      (fun _ => AssocResponse.failure (ErrorResponse.mk (some "unsupported-type")
        none (some "new-session-type")))).1 = none :=
  (negotiate_no_fallback [("HMAC-SHA1", "DH-SHA1")]
    (fun _ => AssocResponse.failure (ErrorResponse.mk (some "unsupported-type")
      none (some "new-session-type")))
    (ErrorResponse.mk (some "unsupported-type") none (some "new-session-type"))
    rfl rfl (Or.inl rfl)).1

end Consumer
